import Mathlib

/-!
Verification development for the nullboot boot-asset lifecycle manager
(package `efibootmgr`): a shallow embedding of the kernel-manager and
EFI-variable-store code, together with theorems settling the frozen claims.

External collaborators of the embedded code (the filesystem `appFs`, the
`MaybeUpdateFile` copy primitive, `WriteShimFallbackToFile`,
`GetEfiArchitecture`, and the package-version library) are modelled as
fields of an explicit environment record `Env`, so that every embedded
function is a pure function of the environment and its arguments.
-/

/-- BootEntry as used by `InstallKernels` and the boot-loader committer:
`Filename` is the loader binary, `Options` the kernel command line,
`Label`/`Description` human-readable text. -/
structure BootEntry where
  Filename : String
  Label : String
  Options : String
  Description : String
deriving DecidableEq

/-- KernelManager state, mirroring the Go struct field for field. -/
structure KernelManager where
  sourceDir : String
  targetDir : String
  sourceKernels : List String
  targetKernels : List String
  bootEntries : List BootEntry
  kernelOptions : String
deriving DecidableEq

/-- Environment of external collaborators, parameterized by the type `V` of
parsed package versions (the external version library's value type).

* `readDir` models `appFs.ReadDir` (returning the entry names, or an error);
* `parseVersion` models `version.NewVersion` of the external go-deb-version
  library;
* `vGt` models `Version.GreaterThan` of that library;
* `maybeUpdateFile target source` models the external `MaybeUpdateFile`
  primitive, returning (changed, error);
* `remove` models `appFs.Remove` (`none` = success);
* `writeShimFallback` models `WriteShimFallbackToFile` (`none` = success);
* `efiArch` models `GetEfiArchitecture()`. -/
structure Env (V : Type) where
  readDir : String → Except String (List String)
  parseVersion : String → Except String V
  vGt : V → V → Bool
  maybeUpdateFile : String → String → Bool × Option String
  remove : String → Option String
  writeShimFallback : String → List BootEntry → Option String
  efiArch : String

/-- Models Go's `path.Join dir name` for a simple file name (no cleaning is
needed because the embedded code only joins a directory with a bare name). -/
def pathJoin (dir name : String) : String := dir ++ "/" ++ name

/-- getKernelABI returns the kernel ABI part of the kernel filename,
mirroring `kernel[len("kernel.efi-"):]`. -/
def getKernelABI (kernel : String) : String := kernel.drop ("kernel.efi-".length)

/-- The comparison closure passed to `sort.Slice` inside `readKernels`:
parses both ABI versions and returns `a.GreaterThan(b)` (sort descending).
A parse failure yields `false` together with the error message that the Go
closure assigns to the captured `err` variable. -/
def kernelLess {V : Type} (env : Env V) (x y : String) : Bool × Option String :=
  match env.parseVersion (getKernelABI x) with
  | .error e => (false, some ("Could not parse kernel version of " ++ x ++ ": " ++ e))
  | .ok a =>
    match env.parseVersion (getKernelABI y) with
    | .error e => (false, some ("Could not parse kernel version of " ++ y ++ ": " ++ e))
    | .ok b => (env.vGt a b, none)

/-- One insertion step of the sort in `readKernels`.  Go's `sort.Slice` is
modelled as a stable insertion sort (the algorithm it uses on short slices);
this is observationally faithful for the embedded caller: for a consistent
comparator both produce the same sorted list, and the captured `err`
variable ends up non-nil in exactly the same cases (any comparator call that
fails to parse sets it; it is never reset).  The `Option String` argument
threads that captured `err`. -/
def insertKernel {V : Type} (env : Env V) (x : String) :
    List String → Option String → List String × Option String
  | [], err => ([x], err)
  | y :: ys, err =>
    let c := kernelLess env x y
    let err1 : Option String := match c.2 with
      | some m => some m
      | none => err
    if c.1 then
      (x :: y :: ys, err1)
    else
      let r := insertKernel env x ys err1
      (y :: r.1, r.2)

/-- The `sort.Slice(kernels, ...)` call of `readKernels` with its
error-capturing closure, as an insertion sort threading the captured `err`
(initially nil). -/
def sortKernels {V : Type} (env : Env V) (ks : List String) :
    List String × Option String :=
  ks.foldl (fun acc x => insertKernel env x acc.1 acc.2) ([], none)

/-- readKernels returns a list of all kernels in the directory: the entries
whose name starts with `kernel.efi-` (`strings.HasPrefix`, stated on the
character lists), sorted descending by version, together with the captured
error (nil on success). -/
def readKernels {V : Type} (env : Env V) (dir : String) :
    List String × Option String :=
  match env.readDir dir with
  | .error e => ([], some ("Could not determine kernels: " ++ e))
  | .ok entries =>
      sortKernels env (entries.filter (fun n => "kernel.efi-".toList.isPrefixOf n.toList))

/-- NewKernelManager returns a new kernel manager managing kernels in the
host system; the directories and kernel options are the hard-coded values of
the source.  On any `readKernels` error no manager is returned. -/
def NewKernelManager {V : Type} (env : Env V) : Except String KernelManager :=
  let sourceDir := "/usr/lib/linux"
  let targetDir := "/boot/efi/EFI/ubuntu"
  match readKernels env sourceDir with
  | (_, some e) => .error e
  | (src, none) =>
    match readKernels env targetDir with
    | (_, some e) => .error e
    | (tgt, none) =>
      .ok { sourceDir := sourceDir, targetDir := targetDir,
            sourceKernels := src, targetKernels := tgt,
            bootEntries := [], kernelOptions := "root=magic" }

/-- The boot entry appended by `InstallKernels` for source kernel `sk`:
shim filename, vendor label, options with the leading `\` same-directory
file reference, and description. -/
def mkBootEntry {V : Type} (env : Env V) (km : KernelManager) (sk : String) :
    BootEntry :=
  { Filename := "shim" ++ env.efiArch ++ ".efi",
    Label := "Ubuntu with kernel " ++ getKernelABI sk,
    Options := "\\" ++ sk ++ " " ++ km.kernelOptions,
    Description := "Ubuntu entry for kernel " ++ getKernelABI sk }

/-- InstallKernels installs the kernels to the ESP and builds up the boot
entries.  `km.bootEntries` is reset to nil and, per source kernel, a
`MaybeUpdateFile` error logs and `continue`s (skipping the append), while
success appends the entry.  The loop is rendered as a `filterMap`.  The
function always returns a nil error. -/
def installKernels {V : Type} (env : Env V) (km : KernelManager) :
    KernelManager × Option String :=
  let entries := km.sourceKernels.filterMap (fun sk =>
    match (env.maybeUpdateFile (pathJoin km.targetDir sk)
             (pathJoin km.sourceDir sk)).2 with
    | some _ => none
    | none => some (mkBootEntry env km sk))
  ({ km with bootEntries := entries }, none)

/-- isObsoleteKernel checks whether a kernel is obsolete: it is obsolete iff
no source kernel has the same name. -/
def isObsoleteKernel (km : KernelManager) (k : String) : Bool :=
  !(km.sourceKernels.contains k)

/-- One iteration of the `RemoveObsoleteKernels` loop.  The accumulator is
`(remaining, attempts)`: `remaining` collects the obsolete kernels whose
`appFs.Remove` failed (the new tracked target list), and `attempts` records,
in order, every kernel for which `appFs.Remove(path.Join(targetDir, tk))`
was invoked.  A non-obsolete kernel is skipped (`continue`) without a
removal attempt and without entering `remaining`. -/
def removeStep {V : Type} (env : Env V) (km : KernelManager)
    (acc : List String × List String) (tk : String) :
    List String × List String :=
  if !(isObsoleteKernel km tk) then acc
  else
    match env.remove (pathJoin km.targetDir tk) with
    | some _ => (acc.1 ++ [tk], acc.2 ++ [tk])
    | none => (acc.1, acc.2 ++ [tk])

/-- RemoveObsoleteKernels removes old kernels in the ESP vendor directory.
Returns the new manager state, the list of kernels for which removal was
attempted, and the function's returned error (always nil). -/
def removeObsoleteKernels {V : Type} (env : Env V) (km : KernelManager) :
    KernelManager × List String × Option String :=
  let acc := km.targetKernels.foldl (removeStep env km) ([], [])
  ({ km with targetKernels := acc.1 }, acc.2, none)

/-- CommitToBootLoader writes shim's boot CSV.  Returns the (unchanged)
manager state, whether a fallback-write failure was logged, and the
function's returned error (always nil: a write failure is only logged). -/
def commitToBootLoader {V : Type} (env : Env V) (km : KernelManager) :
    KernelManager × Bool × Option String :=
  let writeResult := env.writeShimFallback
    (pathJoin km.targetDir ("BOOT" ++ env.efiArch.toUpper ++ ".CSV"))
    km.bootEntries
  (km, writeResult.isSome, none)

/-- Errors of the EFI variable interface: `varsUnavailable` models
`efi.ErrVarsUnavailable`, `varNotExist` models `efi.ErrVarNotExist`, and
`other` models any ad-hoc error such as `errors.New("Cannot access")`. -/
inductive EFIError where
  | varsUnavailable
  | varNotExist
  | other (msg : String)
deriving DecidableEq

namespace efi

/-- Models `efi.GUID` (an opaque 16-byte identifier) abstractly as a value
with decidable equality. -/
structure GUID where
  val : Nat
deriving DecidableEq

end efi

/-- Models `efi.VariableDescriptor`: the composite key (Name, GUID). -/
structure VariableDescriptor where
  Name : String
  GUID : efi.GUID
deriving DecidableEq

/-- Device path node kinds used by the embedded code (the mock's fixed
synthetic path uses ACPI, PCI and USB nodes). -/
inductive DevicePathNode where
  | acpi (hid : Nat)
  | pci (device : Nat) (function : Nat)
  | usb (parentPortNumber : Nat) (interfaceNumber : Nat)
deriving DecidableEq

/-- Models `efi.DevicePath`: an ordered sequence of device path nodes. -/
def DevicePath := List DevicePathNode
deriving DecidableEq

/-- NoEFIVariables.ListVariables: always `ErrVarsUnavailable`. -/
def NoEFIVariables.ListVariables :
    Except EFIError (List VariableDescriptor) :=
  .error .varsUnavailable

/-- NoEFIVariables.GetVariable: always `ErrVarsUnavailable`. -/
def NoEFIVariables.GetVariable (_guid : efi.GUID) (_name : String) :
    Except EFIError (List Nat × Nat) :=
  .error .varsUnavailable

/-- NoEFIVariables.SetVariable: always `ErrVarsUnavailable`. -/
def NoEFIVariables.SetVariable (_guid : efi.GUID) (_name : String)
    (_data : List Nat) (_attrs : Nat) : Option EFIError :=
  some .varsUnavailable

/-- NoEFIVariables.NewFileDevicePath: returns `errors.New("Cannot access")`
(note: not `ErrVarsUnavailable`). -/
def NoEFIVariables.NewFileDevicePath (_filepath : String) (_mode : Nat) :
    Except EFIError DevicePath :=
  .error (.other "Cannot access")

/-- Models `mockEFIVariable`: stored payload bytes and attributes. -/
structure mockEFIVariable where
  data : List Nat
  attrs : Nat
deriving DecidableEq

/-- Models `MockEFIVariables`: the Go map is modelled as an association
list with unique keys (assignment replaces, empty-data `delete` removes). -/
structure MockEFIVariables where
  store : List (VariableDescriptor × mockEFIVariable)

/-- MockEFIVariables.ListVariables: all stored descriptors. -/
def MockEFIVariables.ListVariables (m : MockEFIVariables) :
    Except EFIError (List VariableDescriptor) :=
  .ok (m.store.map (·.1))

/-- MockEFIVariables.GetVariable: lookup by `{Name, GUID}`; a missing key
fails with `ErrVarNotExist`. -/
def MockEFIVariables.GetVariable (m : MockEFIVariables)
    (guid : efi.GUID) (name : String) :
    Except EFIError (List Nat × Nat) :=
  match m.store.lookup ⟨name, guid⟩ with
  | none => .error .varNotExist
  | some v => .ok (v.data, v.attrs)

/-- MockEFIVariables.SetVariable: empty data deletes the key, otherwise the
key is assigned the new value; the write itself never fails. -/
def MockEFIVariables.SetVariable (m : MockEFIVariables)
    (guid : efi.GUID) (name : String) (data : List Nat) (attrs : Nat) :
    MockEFIVariables × Option EFIError :=
  let d : VariableDescriptor := ⟨name, guid⟩
  if data.length == 0 then
    ({ store := m.store.filter (fun kv => !(kv.1 == d)) }, none)
  else
    ({ store := m.store.filter (fun kv => !(kv.1 == d)) ++ [(d, ⟨data, attrs⟩)] },
     none)

/-- Modelled from the spec: value type of the external package-version
library (go-deb-version, not part of this repository) — a version is
`epoch:upstream-revision` in the distribution package-version grammar. -/
structure DebVersion where
  epoch : Nat
  upstream : String
  revision : String
deriving DecidableEq

/-- Numeric value of a digit run. -/
def digitsToNat (l : List Char) : Nat :=
  l.foldl (fun acc c => acc * 10 + (c.toNat - 48)) 0

/-- Lexicographic comparison of character runs by code point. -/
def cmpChars : List Char → List Char → Ordering
  | [], [] => .eq
  | [], _ :: _ => .lt
  | _ :: _, [] => .gt
  | a :: as, b :: bs =>
    if a.toNat < b.toNat then .lt
    else if b.toNat < a.toNat then .gt
    else cmpChars as bs

/-- Modelled from the spec: segment comparison of the external
package-version library — alternately compare maximal non-digit runs
(lexically) and maximal digit runs (numerically); the first difference
decides.  The fuel argument bounds the recursion (each round consumes at
least one character of a nonempty side). -/
def cmpDebGo : Nat → List Char → List Char → Ordering
  | 0, _, _ => .eq
  | _ + 1, [], [] => .eq
  | _ + 1, [], _ :: _ => .lt
  | _ + 1, _ :: _, [] => .gt
  | fuel + 1, a, b =>
    let pa := a.takeWhile (fun c => !c.isDigit)
    let ra := a.dropWhile (fun c => !c.isDigit)
    let pb := b.takeWhile (fun c => !c.isDigit)
    let rb := b.dropWhile (fun c => !c.isDigit)
    match cmpChars pa pb with
    | .lt => .lt
    | .gt => .gt
    | .eq =>
      let na := digitsToNat (ra.takeWhile Char.isDigit)
      let nb := digitsToNat (rb.takeWhile Char.isDigit)
      if na < nb then .lt
      else if nb < na then .gt
      else cmpDebGo fuel (ra.dropWhile Char.isDigit) (rb.dropWhile Char.isDigit)

/-- Segment comparison of two version strings. -/
def cmpDebStr (a b : String) : Ordering :=
  cmpDebGo (a.length + b.length + 1) a.toList b.toList

/-- Modelled from the spec: parsing of the external package-version grammar
(`version.NewVersion` of go-deb-version, not part of this repository) —
an optional all-digit epoch before the first `:`, the revision after the
last `-`, and an upstream version that must start with a digit. -/
def parseDebVersion (s : String) : Except String DebVersion :=
  let cs := s.toList
  let hasEpoch := cs.contains ':'
  let epochCs := if hasEpoch then cs.takeWhile (fun c => !(c == ':')) else []
  let rest := if hasEpoch then (cs.dropWhile (fun c => !(c == ':'))).drop 1 else cs
  if hasEpoch && !(!epochCs.isEmpty && epochCs.all Char.isDigit) then
    .error "invalid epoch"
  else
    let hasRev := rest.contains '-'
    let upCs :=
      if hasRev then
        (((rest.reverse).dropWhile (fun c => !(c == '-'))).drop 1).reverse
      else rest
    let revCs := if hasRev then ((rest.reverse).takeWhile (fun c => !(c == '-'))).reverse else []
    match upCs with
    | [] => .error "empty upstream version"
    | c :: _ =>
      if c.isDigit then
        .ok ⟨digitsToNat epochCs, upCs.asString, revCs.asString⟩
      else
        .error "upstream version must start with a digit"

/-- Modelled from the spec: total order of the external package-version
library — compare epoch, then upstream, then revision. -/
def debVersionCmp (a b : DebVersion) : Ordering :=
  match compare a.epoch b.epoch with
  | .lt => .lt
  | .gt => .gt
  | .eq =>
    match cmpDebStr a.upstream b.upstream with
    | .lt => .lt
    | .gt => .gt
    | .eq => cmpDebStr a.revision b.revision

/-- Modelled from the spec: `Version.GreaterThan` of the external library. -/
def debVersionGT (a b : DebVersion) : Bool :=
  debVersionCmp a b == .gt

/-- Base environment for concrete instantiations; individual fields are
overridden per scenario. -/
def baseEnv : Env Nat :=
  { readDir := fun _ => .error "not mounted",
    parseVersion := fun _ => .error "unknown version",
    vGt := fun a b => decide (b < a),
    maybeUpdateFile := fun _ _ => (false, none),
    remove := fun _ => none,
    writeShimFallback := fun _ _ => none,
    efiArch := "x64" }

/-- Concrete manager state with one source kernel, for exercising
`installKernels` when the copy step fails. -/
def kmOneSource : KernelManager :=
  { sourceDir := "/usr/lib/linux",
    targetDir := "/boot/efi/EFI/ubuntu",
    sourceKernels := ["kernel.efi-5.4.0-9"],
    targetKernels := [],
    bootEntries := [],
    kernelOptions := "root=magic" }

/-- Environment in which every `MaybeUpdateFile` call fails. -/
def envCopyFail : Env Nat :=
  { baseEnv with maybeUpdateFile := fun _ _ => (false, some "input/output error") }

/-- Environment in which every `MaybeUpdateFile` call succeeds. -/
def envCopyOk : Env Nat :=
  { baseEnv with maybeUpdateFile := fun _ _ => (true, none) }

/-- Concrete manager state with two source kernels, for exercising
`installKernels` boot-entry construction. -/
def kmTwoSource : KernelManager :=
  { sourceDir := "/usr/lib/linux",
    targetDir := "/boot/efi/EFI/ubuntu",
    sourceKernels := ["kernel.efi-5.4.0-10", "kernel.efi-5.4.0-9"],
    targetKernels := [],
    bootEntries := [],
    kernelOptions := "root=magic" }

/-- Environment whose source directory holds exactly one kernel file, whose
ABI suffix does not parse under the package-version grammar. -/
def envSingleBad : Env DebVersion :=
  { readDir := fun d =>
      if d == "/usr/lib/linux" then .ok ["kernel.efi-garbage"]
      else if d == "/boot/efi/EFI/ubuntu" then .ok []
      else .error "no such directory",
    parseVersion := parseDebVersion,
    vGt := debVersionGT,
    maybeUpdateFile := fun _ _ => (false, none),
    remove := fun _ => none,
    writeShimFallback := fun _ _ => none,
    efiArch := "x64" }

/-- Environment whose source directory holds two kernel files, one of which
has an unparsable ABI suffix. -/
def envTwoOneBad : Env DebVersion :=
  { envSingleBad with
    readDir := fun d =>
      if d == "/usr/lib/linux" then .ok ["kernel.efi-1.0", "kernel.efi-garbage"]
      else if d == "/boot/efi/EFI/ubuntu" then .ok []
      else .error "no such directory" }

/-- Environment whose source directory holds two kernel files with distinct
names but equal package versions (`1.0` and `1.00`). -/
def envTie : Env DebVersion :=
  { envSingleBad with
    readDir := fun d =>
      if d == "/usr/lib/linux" then .ok ["kernel.efi-1.0", "kernel.efi-1.00"]
      else if d == "/boot/efi/EFI/ubuntu" then .ok []
      else .error "no such directory" }

/-- Environment with two properly versioned source kernels, listed in
ascending order so that the construction sort has to reorder them; kernel
versions are mapped to the naturals 9 and 10. -/
def envSortable : Env Nat :=
  { baseEnv with
    readDir := fun d =>
      if d == "/usr/lib/linux" then .ok ["kernel.efi-5.4.0-9", "kernel.efi-5.4.0-10"]
      else if d == "/boot/efi/EFI/ubuntu" then .ok []
      else .error "no such directory",
    parseVersion := fun s =>
      if s == "5.4.0-9" then .ok 9
      else if s == "5.4.0-10" then .ok 10
      else .error "unknown version" }

/-- The manager state produced by `NewKernelManager envSortable`. -/
def kmSorted : KernelManager :=
  { sourceDir := "/usr/lib/linux",
    targetDir := "/boot/efi/EFI/ubuntu",
    sourceKernels := ["kernel.efi-5.4.0-10", "kernel.efi-5.4.0-9"],
    targetKernels := [],
    bootEntries := [],
    kernelOptions := "root=magic" }

/-- Concrete manager state for the obsolete-kernel scenarios: one current
source kernel, three target kernels (one current, two obsolete). -/
def kmRemoval : KernelManager :=
  { sourceDir := "/usr/lib/linux",
    targetDir := "/boot/efi/EFI/ubuntu",
    sourceKernels := ["kernel.efi-5.4.0-10"],
    targetKernels := ["kernel.efi-5.4.0-10", "kernel.efi-5.4.0-9", "kernel.efi-5.4.0-8"],
    bootEntries := [],
    kernelOptions := "root=magic" }

/-- Environment in which removing `kernel.efi-5.4.0-8` fails (simulated
I/O error) and every other removal succeeds. -/
def envRemoveOneFails : Env Nat :=
  { baseEnv with
    remove := fun p =>
      if p == "/boot/efi/EFI/ubuntu/kernel.efi-5.4.0-8" then some "permission denied"
      else none }

/-- Environment in which writing the shim fallback configuration fails. -/
def envWriteFails : Env Nat :=
  { baseEnv with writeShimFallback := fun _ _ => some "no space left on device" }

/-! ### Helper lemmas -/

/-- Length of a `filterMap` equals the length of the `filter` by
definedness of the mapped function. -/
theorem length_filterMap_isSome {α β : Type} (f : α → Option β) (l : List α) :
    (l.filterMap f).length = (l.filter (fun a => (f a).isSome)).length := by
  induction l with
  | nil => rfl
  | cons x xs ih =>
    cases h : f x <;> simp [List.filterMap_cons, List.filter_cons, h, ih]

/-- Characterization of the `RemoveObsoleteKernels` loop: starting from any
accumulator, it appends the obsolete-and-removal-failed kernels to the first
component and all obsolete kernels (the attempted removals) to the second. -/
theorem removeFold_spec {V : Type} (env : Env V) (km : KernelManager) :
    ∀ (l rem att : List String),
      l.foldl (removeStep env km) (rem, att) =
        (rem ++ l.filter (fun tk => isObsoleteKernel km tk &&
            (env.remove (pathJoin km.targetDir tk)).isSome),
         att ++ l.filter (fun tk => isObsoleteKernel km tk)) := by
  intro l
  induction l with
  | nil => intro rem att; simp
  | cons tk l ih =>
    intro rem att
    rw [List.foldl_cons]
    cases hobs : isObsoleteKernel km tk with
    | false =>
      simp only [removeStep, hobs, Bool.not_false, if_true, List.filter_cons,
        Bool.false_and, ih]
      simp
    | true =>
      cases hrm : env.remove (pathJoin km.targetDir tk) with
      | none =>
        simp only [removeStep, hobs, Bool.not_true, if_false, hrm, List.filter_cons,
          Bool.true_and, ih]
        simp [hrm]
      | some e =>
        simp only [removeStep, hobs, Bool.not_true, if_false, hrm, List.filter_cons,
          Bool.true_and, ih]
        simp [hrm]

/-- A kernel is obsolete exactly when it is not a member of the source set. -/
theorem isObsoleteKernel_eq_true_iff (km : KernelManager) (k : String) :
    isObsoleteKernel km k = true ↔ k ∉ km.sourceKernels := by
  simp [isObsoleteKernel, List.contains_iff_exists_mem_beq]

/-- Lookup of a key in a list from which that key has been filtered out. -/
theorem lookup_filter_ne {α β : Type} [DecidableEq α] (d : α) (l : List (α × β)) :
    (l.filter (fun kv => !(kv.1 == d))).lookup d = none := by
  induction l with
  | nil => rfl
  | cons kv l ih =>
    by_cases h : kv.1 = d
    · simp [List.filter_cons, h, ih]
    · have hbeq : (d == kv.1) = false := by simp [Ne.symm h]
      simp only [List.filter_cons]
      rw [if_pos (by simp [h])]
      rw [List.lookup, hbeq]
      exact ih

/-- Lookup of a key appended behind entries from which it was filtered. -/
theorem lookup_filter_ne_append {α β : Type} [DecidableEq α] (d : α) (v : β)
    (l : List (α × β)) :
    ((l.filter (fun kv => !(kv.1 == d))) ++ [(d, v)]).lookup d = some v := by
  induction l with
  | nil => simp [List.lookup]
  | cons kv l ih =>
    by_cases h : kv.1 = d
    · simp only [List.filter_cons]
      rw [if_neg (by simp [h])]
      exact ih
    · have hbeq : (d == kv.1) = false := by simp [Ne.symm h]
      simp only [List.filter_cons]
      rw [if_pos (by simp [h])]
      rw [List.cons_append, List.lookup, hbeq]
      exact ih

/-- The inserted list is never empty. -/
theorem insertKernel_ne_nil {V : Type} (env : Env V) (x : String)
    (ys : List String) (err : Option String) :
    (insertKernel env x ys err).1 ≠ [] := by
  cases ys with
  | nil => simp [insertKernel]
  | cons y ys =>
    simp only [insertKernel]
    by_cases hc : (kernelLess env x y).1 = true <;> simp [hc]

/-- The captured error is never reset: if it is nil after an insertion, it
was nil before. -/
theorem insertKernel_err_none {V : Type} (env : Env V) (x : String) :
    ∀ (ys : List String) (err : Option String),
      (insertKernel env x ys err).2 = none → err = none := by
  intro ys
  induction ys with
  | nil =>
    intro err h
    simpa [insertKernel] using h
  | cons y ys ih =>
    intro err h
    simp only [insertKernel] at h
    by_cases hc : (kernelLess env x y).1 = true
    · rw [if_pos hc] at h
      cases hc2 : (kernelLess env x y).2 with
      | none => rw [hc2] at h; exact h
      | some m => rw [hc2] at h; simp at h
    · rw [if_neg hc] at h
      simp only [] at h
      have h2 := ih _ h
      cases hc2 : (kernelLess env x y).2 with
      | none => rw [hc2] at h2; exact h2
      | some m => rw [hc2] at h2; simp at h2

/-- A failing comparison forces the captured error to be non-nil after
inserting into a nonempty list. -/
theorem insertKernel_err_of_cmp {V : Type} (env : Env V) (x y : String)
    (ys : List String) (err : Option String)
    (hcmp : (kernelLess env x y).2 ≠ none) :
    (insertKernel env x (y :: ys) err).2 ≠ none := by
  simp only [insertKernel]
  cases hc2 : (kernelLess env x y).2 with
  | none => exact absurd hc2 hcmp
  | some m =>
    by_cases hc : (kernelLess env x y).1 = true
    · rw [if_pos hc]; simp
    · rw [if_neg hc]
      intro h
      have := insertKernel_err_none env x ys _ h
      simp at this

/-- A parse failure on either side makes the comparison closure set the
captured error. -/
theorem kernelLess_err_of_bad {V : Type} (env : Env V) (x y : String)
    (hbad : (∃ e, env.parseVersion (getKernelABI x) = .error e)
          ∨ (∃ e, env.parseVersion (getKernelABI y) = .error e)) :
    (kernelLess env x y).2 ≠ none := by
  unfold kernelLess
  cases hx : env.parseVersion (getKernelABI x) with
  | error e => simp
  | ok a =>
    cases hy : env.parseVersion (getKernelABI y) with
    | error e => simp
    | ok b =>
      rcases hbad with ⟨e, he⟩ | ⟨e, he⟩
      · rw [hx] at he; cases he
      · rw [hy] at he; cases he

/-- Folding the insertion over a list never resets the captured error. -/
theorem sortFold_err_none {V : Type} (env : Env V) :
    ∀ (l : List String) (acc : List String × Option String),
      (l.foldl (fun acc x => insertKernel env x acc.1 acc.2) acc).2 = none →
      acc.2 = none := by
  intro l
  induction l with
  | nil => intro acc h; exact h
  | cons k l ih =>
    intro acc h
    rw [List.foldl_cons] at h
    exact insertKernel_err_none env k acc.1 acc.2 (ih _ h)

/-- If some element of the remaining work list has an unparsable version and
the accumulated sorted list is nonempty, the fold ends with a non-nil
captured error. -/
theorem sortFold_err_of_bad {V : Type} (env : Env V) :
    ∀ (l : List String) (acc : List String × Option String),
      acc.1 ≠ [] →
      (∃ k ∈ l, ∃ e, env.parseVersion (getKernelABI k) = .error e) →
      (l.foldl (fun acc x => insertKernel env x acc.1 acc.2) acc).2 ≠ none := by
  intro l
  induction l with
  | nil =>
    intro acc _ hbad
    rcases hbad with ⟨k, hk, _⟩
    cases hk
  | cons k l ih =>
    intro acc hne hbad
    rw [List.foldl_cons]
    rcases hbad with ⟨k', hk', e, he⟩
    rcases List.mem_cons.mp hk' with rfl | hk'mem
    · -- the bad kernel is inserted now, into a nonempty accumulator
      rcases List.exists_cons_of_ne_nil hne with ⟨y, ys, hys⟩
      intro hfin
      have hstep := sortFold_err_none env l _ hfin
      rw [hys] at hstep
      exact insertKernel_err_of_cmp env k' y ys acc.2
        (kernelLess_err_of_bad env k' y (Or.inl ⟨e, he⟩)) hstep
    · exact ih _ (insertKernel_ne_nil env k acc.1 acc.2) ⟨k', hk'mem, e, he⟩

/-- The head of an insertion result is the inserted element or the old head. -/
theorem insertKernel_head {V : Type} (env : Env V) (x : String)
    (ys : List String) (err : Option String) :
    (insertKernel env x ys err).1.head? = some x ∨
    (insertKernel env x ys err).1.head? = ys.head? := by
  cases ys with
  | nil => left; simp [insertKernel]
  | cons y ys =>
    simp only [insertKernel]
    by_cases hc : (kernelLess env x y).1 = true
    · left; simp [hc]
    · right; simp [hc]

/-- Asymmetry of the comparison closure, given asymmetry of the version
order it wraps. -/
theorem kernelLess_asymm {V : Type} (env : Env V)
    (hv : ∀ a b, env.vGt a b = true → env.vGt b a = false) :
    ∀ u v, (kernelLess env u v).1 = true → (kernelLess env v u).1 = false := by
  intro u v h
  cases hu : env.parseVersion (getKernelABI u) with
  | error e => simp [kernelLess, hu] at h
  | ok a =>
    cases hvv : env.parseVersion (getKernelABI v) with
    | error e => simp [kernelLess, hu, hvv] at h
    | ok b =>
      simp only [kernelLess, hu, hvv] at h ⊢
      exact hv a b h

/-- Insertion preserves the descending chain invariant of the sort. -/
theorem insertKernel_chain {V : Type} (env : Env V)
    (hasym : ∀ u v, (kernelLess env u v).1 = true → (kernelLess env v u).1 = false)
    (x : String) :
    ∀ (ys : List String) (err : Option String),
      ys.Chain' (fun a b => (kernelLess env b a).1 = false) →
      (insertKernel env x ys err).1.Chain' (fun a b => (kernelLess env b a).1 = false) := by
  intro ys
  induction ys with
  | nil => intro err _; simp [insertKernel]
  | cons y ys ih =>
    intro err hch
    simp only [insertKernel]
    by_cases hc : (kernelLess env x y).1 = true
    · rw [if_pos hc]
      exact List.Chain'.cons (hasym x y hc) hch
    · rw [if_neg hc]
      simp only []
      rw [List.chain'_cons']
      refine ⟨?_, ih _ (List.Chain'.tail hch)⟩
      intro z hz
      rcases insertKernel_head env x ys (match (kernelLess env x y).2 with
          | some m => some m | none => err) with hh | hh
      · rw [hh] at hz
        simp only [Option.mem_def, Option.some.injEq] at hz
        subst hz
        exact Bool.eq_false_iff.mpr (fun h => hc h)
      · rw [hh] at hz
        exact (List.chain'_cons'.mp hch).1 z hz

/-- The fold underlying `sortKernels` preserves the descending chain. -/
theorem sortFold_chain {V : Type} (env : Env V)
    (hasym : ∀ u v, (kernelLess env u v).1 = true → (kernelLess env v u).1 = false) :
    ∀ (l : List String) (acc : List String × Option String),
      acc.1.Chain' (fun a b => (kernelLess env b a).1 = false) →
      ((l.foldl (fun acc x => insertKernel env x acc.1 acc.2) acc).1).Chain'
        (fun a b => (kernelLess env b a).1 = false) := by
  intro l
  induction l with
  | nil => intro acc h; exact h
  | cons k l ih =>
    intro acc h
    rw [List.foldl_cons]
    exact ih _ (insertKernel_chain env hasym k acc.1 acc.2 h)

/-- A chain whose pairwise relation can be strengthened using membership of
both endpoints. -/
theorem chain'_imp_of_mem {α : Type} {P Q : α → α → Prop} :
    ∀ (l : List α), l.Chain' P →
      (∀ a b, a ∈ l → b ∈ l → P a b → Q a b) → l.Chain' Q := by
  intro l
  induction l with
  | nil => intro _ _; exact List.chain'_nil
  | cons a l ih =>
    intro h himp
    rw [List.chain'_cons'] at h ⊢
    refine ⟨?_, ih h.2 (fun u v hu hv => himp u v (List.mem_cons_of_mem a hu)
      (List.mem_cons_of_mem a hv))⟩
    intro b hb
    exact himp a b (List.mem_cons_self a l)
      (List.mem_cons_of_mem a (List.mem_of_mem_head? hb)) (h.1 b hb)

/-- Successful construction determines the source enumeration: inversion of
`NewKernelManager` on the source directory read. -/
theorem newKernelManager_inv_source {V : Type} (env : Env V) (km : KernelManager)
    (hok : NewKernelManager env = .ok km) :
    readKernels env "/usr/lib/linux" = (km.sourceKernels, none) := by
  simp only [NewKernelManager] at hok
  rcases h1 : readKernels env "/usr/lib/linux" with ⟨src, err1⟩
  rw [h1] at hok
  cases err1 with
  | some e => simp at hok
  | none =>
    rcases h2 : readKernels env "/boot/efi/EFI/ubuntu" with ⟨tgt, err2⟩
    rw [h2] at hok
    cases err2 with
    | some e => simp at hok
    | none =>
      simp only [Except.ok.injEq] at hok
      rw [← hok]

/-- On success the sorted result of `readKernels` satisfies the descending
chain invariant. -/
theorem readKernels_chain {V : Type} (env : Env V)
    (hasym : ∀ u v, (kernelLess env u v).1 = true → (kernelLess env v u).1 = false)
    (dir : String) (ks : List String)
    (hok : readKernels env dir = (ks, none)) :
    ks.Chain' (fun a b => (kernelLess env b a).1 = false) := by
  unfold readKernels at hok
  cases hd : env.readDir dir with
  | error e => rw [hd] at hok; simp at hok
  | ok entries =>
    rw [hd] at hok
    have hok2 : sortKernels env
        (entries.filter (fun n => "kernel.efi-".toList.isPrefixOf n.toList)) =
        (ks, none) := hok
    have hch := sortFold_chain env hasym
      (entries.filter (fun n => "kernel.efi-".toList.isPrefixOf n.toList))
      ([], none) List.chain'_nil
    unfold sortKernels at hok2
    rw [hok2] at hch
    exact hch

/-- With at least two enumerated kernels, an unparsable version among them
forces a non-nil captured error out of the sort (each inserted element is
compared at least once, and the first comparison parses both initial
elements unless an earlier parse already failed). -/
theorem sortKernels_err_of_bad {V : Type} (env : Env V) (ks : List String)
    (hlen : 2 ≤ ks.length)
    (hbad : ∃ k ∈ ks, ∃ e, env.parseVersion (getKernelABI k) = .error e) :
    (sortKernels env ks).2 ≠ none := by
  rcases ks with _ | ⟨k0, _ | ⟨k1, rest⟩⟩
  · simp at hlen
  · simp at hlen
  · unfold sortKernels
    rw [List.foldl_cons, List.foldl_cons]
    rcases hbad with ⟨k, hk, e, he⟩
    rcases List.mem_cons.mp hk with rfl | hk2
    · -- k0 itself is unparsable: the first comparison detects it
      intro hfin
      have h1 := sortFold_err_none env rest _ hfin
      exact insertKernel_err_of_cmp env k1 k [] none
        (kernelLess_err_of_bad env k1 k (Or.inr ⟨e, he⟩)) h1
    · rcases List.mem_cons.mp hk2 with rfl | hk3
      · -- k1 is unparsable: its own first comparison detects it
        intro hfin
        have h1 := sortFold_err_none env rest _ hfin
        exact insertKernel_err_of_cmp env k k0 [] none
          (kernelLess_err_of_bad env k k0 (Or.inl ⟨e, he⟩)) h1
      · -- the unparsable kernel is inserted later, into a nonempty list
        exact sortFold_err_of_bad env rest _
          (insertKernel_ne_nil env k1 [k0] none) ⟨k, hk3, e, he⟩

/-- A source-directory enumeration error propagates out of construction. -/
theorem newKernelManager_err_source {V : Type} (env : Env V) (e : String)
    (h : (readKernels env "/usr/lib/linux").2 = some e) :
    NewKernelManager env = .error e := by
  simp only [NewKernelManager]
  rcases h1 : readKernels env "/usr/lib/linux" with ⟨src, err⟩
  rw [h1] at h
  simp only at h
  subst h
  rfl

/-- A target-directory enumeration error propagates out of construction. -/
theorem newKernelManager_err_target {V : Type} (env : Env V) (e : String)
    (hsrc : (readKernels env "/usr/lib/linux").2 = none)
    (h : (readKernels env "/boot/efi/EFI/ubuntu").2 = some e) :
    NewKernelManager env = .error e := by
  simp only [NewKernelManager]
  rcases h1 : readKernels env "/usr/lib/linux" with ⟨src, err⟩
  rw [h1] at hsrc
  simp only at hsrc
  subst hsrc
  rcases h2 : readKernels env "/boot/efi/EFI/ubuntu" with ⟨tgt, err2⟩
  rw [h2] at h
  simp only at h
  subst h
  rfl

/-! ### Claims -/

/-- Claim C1, counterexample: with a single source kernel whose copy step
(`MaybeUpdateFile`) fails, `InstallKernels` appends no boot entry at all
(the loop `continue`s before the append), so the number of boot entries
(0) differs from the number of source kernels (1). -/
theorem installKernels_skips_failed_copy_cex :
    (installKernels envCopyFail kmOneSource).1.bootEntries.length ≠
      kmOneSource.sourceKernels.length := by decide

/-- Claim C1 (amended): a call to `InstallKernels` appends one `BootEntry`
per source kernel whose copy step succeeded; a kernel whose
`MaybeUpdateFile` call failed is skipped without an entry, so the number of
boot entries equals the number of source kernels whose copy step
succeeded. -/
theorem installKernels_entry_count {V : Type} (env : Env V) (km : KernelManager) :
    (installKernels env km).1.bootEntries.length =
      (km.sourceKernels.filter (fun sk =>
        ((env.maybeUpdateFile (pathJoin km.targetDir sk)
            (pathJoin km.sourceDir sk)).2).isNone)).length := by
  simp only [installKernels]
  rw [length_filterMap_isSome]
  congr 1
  apply List.filter_congr
  intro sk _
  cases h : (env.maybeUpdateFile (pathJoin km.targetDir sk)
      (pathJoin km.sourceDir sk)).2 <;> simp [h]

/-- Claim C2, counterexample: a source directory whose single enumerated
kernel filename has an unparsable ABI suffix.  The error-capturing sort
comparator is never invoked on a one-element list, so `NewKernelManager`
succeeds and even stores the unparsable kernel — contradicting the claim
that any unparsable suffix fails construction. -/
theorem newKernelManager_single_unparsable_cex :
    parseDebVersion (getKernelABI "kernel.efi-garbage") =
      .error "upstream version must start with a digit"
    ∧ NewKernelManager envSingleBad = .ok
        { sourceDir := "/usr/lib/linux", targetDir := "/boot/efi/EFI/ubuntu",
          sourceKernels := ["kernel.efi-garbage"], targetKernels := [],
          bootEntries := [], kernelOptions := "root=magic" } :=
  ⟨rfl, rfl⟩

/-- Claim C2 (amended): if an enumeration of the source or target directory
yields at least two filenames matching the kernel naming convention and any
of them has an unparsable ABI suffix, that enumeration's captured error is
non-nil, and a non-nil enumeration error for either directory makes
`NewKernelManager` fail with that descriptive error and return no manager
value.  (With exactly one matching filename the sort comparator is never
invoked and the parse failure goes undetected.) -/
theorem newKernelManager_fails_on_unparsable {V : Type} (env : Env V) :
    (∀ dir es, env.readDir dir = .ok es →
        2 ≤ (es.filter (fun n => "kernel.efi-".toList.isPrefixOf n.toList)).length →
        (∃ k ∈ es.filter (fun n => "kernel.efi-".toList.isPrefixOf n.toList),
          ∃ e, env.parseVersion (getKernelABI k) = .error e) →
        (readKernels env dir).2 ≠ none)
    ∧ (∀ e, (readKernels env "/usr/lib/linux").2 = some e →
        NewKernelManager env = .error e)
    ∧ (∀ e, (readKernels env "/usr/lib/linux").2 = none →
        (readKernels env "/boot/efi/EFI/ubuntu").2 = some e →
        NewKernelManager env = .error e) := by
  refine ⟨?_, fun e h => newKernelManager_err_source env e h,
    fun e h1 h2 => newKernelManager_err_target env e h1 h2⟩
  intro dir es hdir hlen hbad
  unfold readKernels
  rw [hdir]
  exact sortKernels_err_of_bad env _ hlen hbad

/-- Claim C2, witness: a source directory with two kernels, one of them
unparsable, makes the enumeration fail and construction return the
descriptive parse error. -/
theorem newKernelManager_fails_on_unparsable_witness :
    (readKernels envTwoOneBad "/usr/lib/linux").2 ≠ none
    ∧ NewKernelManager envTwoOneBad = .error
        "Could not parse kernel version of kernel.efi-garbage: upstream version must start with a digit" :=
  ⟨(newKernelManager_fails_on_unparsable envTwoOneBad).1 "/usr/lib/linux"
      ["kernel.efi-1.0", "kernel.efi-garbage"] rfl (by decide)
      ⟨"kernel.efi-garbage", by decide,
        "upstream version must start with a digit", rfl⟩,
    (newKernelManager_fails_on_unparsable envTwoOneBad).2.1 _ rfl⟩

/-- Claim C3, counterexample: two distinct source filenames whose ABI
versions are equal under package-version comparison (`1.0` and `1.00`).
Construction succeeds, both versions parse, yet neither adjacent element is
strictly newer than the other, so the stored source list is not *strictly*
descending. -/
theorem sourceKernels_not_strictly_descending_cex :
    NewKernelManager envTie = .ok
      { sourceDir := "/usr/lib/linux", targetDir := "/boot/efi/EFI/ubuntu",
        sourceKernels := ["kernel.efi-1.0", "kernel.efi-1.00"], targetKernels := [],
        bootEntries := [], kernelOptions := "root=magic" }
    ∧ parseDebVersion (getKernelABI "kernel.efi-1.0") = .ok ⟨0, "1.0", ""⟩
    ∧ parseDebVersion (getKernelABI "kernel.efi-1.00") = .ok ⟨0, "1.00", ""⟩
    ∧ (kernelLess envTie "kernel.efi-1.0" "kernel.efi-1.00").1 = false
    ∧ (kernelLess envTie "kernel.efi-1.00" "kernel.efi-1.0").1 = false :=
  ⟨rfl, rfl, rfl, rfl, rfl⟩

/-- Claim C3 (amended): after successful construction with an asymmetric
version order, the stored source kernel list is sorted descending by the
version-comparison closure — no element is strictly newer than its
predecessor; and whenever the comparison additionally decides every pair of
distinct stored filenames (no version ties), adjacent distinct entries are
*strictly* descending. -/
theorem newKernelManager_sourceKernels_sorted {V : Type} (env : Env V)
    (km : KernelManager)
    (hasym : ∀ a b, env.vGt a b = true → env.vGt b a = false)
    (hok : NewKernelManager env = .ok km) :
    km.sourceKernels.Chain' (fun a b => (kernelLess env b a).1 = false)
    ∧ ((∀ u v, u ∈ km.sourceKernels → v ∈ km.sourceKernels → u ≠ v →
          (kernelLess env u v).1 = true ∨ (kernelLess env v u).1 = true) →
        km.sourceKernels.Chain' (fun a b => a ≠ b → (kernelLess env a b).1 = true)) := by
  have hchain := readKernels_chain env (kernelLess_asymm env hasym) "/usr/lib/linux"
    km.sourceKernels (newKernelManager_inv_source env km hok)
  refine ⟨hchain, ?_⟩
  intro htotal
  refine chain'_imp_of_mem km.sourceKernels hchain ?_
  intro a b ha hb hP hne
  rcases htotal a b ha hb hne with h | h
  · exact h
  · rw [hP] at h; cases h

/-- Claim C3, witness: a source directory listed in ascending version order
is stored sorted descending (`5.4.0-10` before `5.4.0-9`, a version order
that differs from lexical string order), and with the tie-free concrete
version table the strict chain also holds. -/
theorem newKernelManager_sourceKernels_sorted_witness :
    NewKernelManager envSortable = .ok kmSorted
    ∧ kmSorted.sourceKernels.Chain' (fun a b => (kernelLess envSortable b a).1 = false)
    ∧ kmSorted.sourceKernels.Chain'
        (fun a b => a ≠ b → (kernelLess envSortable a b).1 = true) := by
  have hasym : ∀ a b : Nat, envSortable.vGt a b = true → envSortable.vGt b a = false := by
    intro a b h
    simp only [envSortable, baseEnv] at h ⊢
    simp at h ⊢
    omega
  have h := newKernelManager_sourceKernels_sorted envSortable kmSorted hasym rfl
  refine ⟨rfl, h.1, h.2 ?_⟩
  intro u v hu hv hne
  have hu2 : u = "kernel.efi-5.4.0-10" ∨ u = "kernel.efi-5.4.0-9" := by
    simpa [kmSorted] using hu
  have hv2 : v = "kernel.efi-5.4.0-10" ∨ v = "kernel.efi-5.4.0-9" := by
    simpa [kmSorted] using hv
  rcases hu2 with rfl | rfl <;> rcases hv2 with rfl | rfl
  · exact absurd rfl hne
  · left; decide
  · right; decide
  · exact absurd rfl hne

/-- Claim C4: `RemoveObsoleteKernels` attempts deletion of exactly those
tracked target kernels whose filename is absent from the current source
set (each attempt being `appFs.Remove(path.Join(targetDir, tk))`), and a
target kernel whose filename appears in the source set is never deleted. -/
theorem removeObsolete_attempts_exactly {V : Type} (env : Env V)
    (km : KernelManager) :
    (removeObsoleteKernels env km).2.1 =
      km.targetKernels.filter (fun tk => isObsoleteKernel km tk)
    ∧ (∀ tk, tk ∈ km.sourceKernels →
        tk ∉ (removeObsoleteKernels env km).2.1) := by
  have hspec := removeFold_spec env km km.targetKernels [] []
  constructor
  · simp only [removeObsoleteKernels, hspec]
    simp
  · intro tk hsrc hin
    simp only [removeObsoleteKernels, hspec] at hin
    simp only [List.nil_append] at hin
    have hobs := (List.mem_filter.mp hin).2
    exact (isObsoleteKernel_eq_true_iff km tk).mp hobs hsrc

/-- Claim C4, witness: with source `{5.4.0-10}` and targets
`{5.4.0-10, 5.4.0-9, 5.4.0-8}`, removal is attempted exactly for the two
obsolete kernels, and never for the still-current `5.4.0-10`. -/
theorem removeObsolete_attempts_exactly_witness :
    (removeObsoleteKernels envRemoveOneFails kmRemoval).2.1 =
      ["kernel.efi-5.4.0-9", "kernel.efi-5.4.0-8"]
    ∧ "kernel.efi-5.4.0-10" ∉ (removeObsoleteKernels envRemoveOneFails kmRemoval).2.1 :=
  ⟨by decide,
   (removeObsolete_attempts_exactly envRemoveOneFails kmRemoval).2
     "kernel.efi-5.4.0-10" (by decide)⟩

/-- Claim C5: `RemoveObsoleteKernels` always returns nil; an obsolete
kernel whose deletion failed is kept in the tracked target list for a later
retry; and every obsolete kernel gets its removal attempted regardless of
failures on the others. -/
theorem removeObsolete_failure_nonfatal {V : Type} (env : Env V)
    (km : KernelManager) :
    (removeObsoleteKernels env km).2.2 = none
    ∧ (∀ tk, tk ∈ km.targetKernels → isObsoleteKernel km tk = true →
        (env.remove (pathJoin km.targetDir tk)).isSome = true →
        tk ∈ (removeObsoleteKernels env km).1.targetKernels)
    ∧ (∀ tk, tk ∈ km.targetKernels → isObsoleteKernel km tk = true →
        tk ∈ (removeObsoleteKernels env km).2.1) := by
  have hspec := removeFold_spec env km km.targetKernels [] []
  refine ⟨rfl, ?_, ?_⟩
  · intro tk hmem hobs hfail
    simp only [removeObsoleteKernels, hspec]
    simp only [List.nil_append]
    exact List.mem_filter.mpr ⟨hmem, by simp [hobs, hfail]⟩
  · intro tk hmem hobs
    simp only [removeObsoleteKernels, hspec]
    simp only [List.nil_append]
    exact List.mem_filter.mpr ⟨hmem, by simp [hobs]⟩

/-- Claim C5, witness: when removing `kernel.efi-5.4.0-8` fails with a
simulated I/O error, the call still returns nil, that kernel stays in the
tracked target list, and the other obsolete kernel was still attempted. -/
theorem removeObsolete_failure_nonfatal_witness :
    (removeObsoleteKernels envRemoveOneFails kmRemoval).2.2 = none
    ∧ "kernel.efi-5.4.0-8" ∈ (removeObsoleteKernels envRemoveOneFails kmRemoval).1.targetKernels
    ∧ "kernel.efi-5.4.0-9" ∈ (removeObsoleteKernels envRemoveOneFails kmRemoval).2.1 :=
  ⟨(removeObsolete_failure_nonfatal envRemoveOneFails kmRemoval).1,
   (removeObsolete_failure_nonfatal envRemoveOneFails kmRemoval).2.1
     "kernel.efi-5.4.0-8" (by decide) (by decide) (by decide),
   (removeObsolete_failure_nonfatal envRemoveOneFails kmRemoval).2.2
     "kernel.efi-5.4.0-9" (by decide) (by decide)⟩

/-- Claim C6, counterexample: in the Unavailable variant,
`NewFileDevicePath` fails with the ad-hoc error `Cannot access`, which is
not `VarsUnavailable` — so not every operation returns `VarsUnavailable`. -/
theorem noEFI_devicePath_error_cex :
    NoEFIVariables.NewFileDevicePath "/boot/efi" 0 = .error (.other "Cannot access")
    ∧ EFIError.other "Cannot access" ≠ EFIError.varsUnavailable :=
  ⟨rfl, by decide⟩

/-- Claim C6 (amended): in the Unavailable variant every operation fails;
`ListVariables`, `GetVariable` and `SetVariable` fail with
`VarsUnavailable`, while `NewFileDevicePath` fails with the distinct error
`Cannot access`. -/
theorem noEFI_every_operation_fails (guid : efi.GUID) (name : String)
    (data : List Nat) (attrs : Nat) (fp : String) (mode : Nat) :
    NoEFIVariables.ListVariables = .error .varsUnavailable
    ∧ NoEFIVariables.GetVariable guid name = .error .varsUnavailable
    ∧ NoEFIVariables.SetVariable guid name data attrs = some .varsUnavailable
    ∧ NoEFIVariables.NewFileDevicePath fp mode = .error (.other "Cannot access") :=
  ⟨rfl, rfl, rfl, rfl⟩

/-- Claim C7: in the in-memory store, setting an empty payload deletes the
variable (a following get fails with `VarNotExist`), and setting a nonempty
payload makes a following get return exactly that payload and those
attributes — from any prior store state. -/
theorem mock_set_get_roundtrip (m : MockEFIVariables) (guid : efi.GUID)
    (name : String) (data : List Nat) (attrs : Nat) :
    (m.SetVariable guid name [] attrs).1.GetVariable guid name = .error .varNotExist
    ∧ (data ≠ [] →
        (m.SetVariable guid name data attrs).1.GetVariable guid name = .ok (data, attrs)) := by
  constructor
  · simp [MockEFIVariables.SetVariable, MockEFIVariables.GetVariable,
      lookup_filter_ne]
  · intro hne
    have hlen : (data.length == 0) = false := by
      cases data with
      | nil => simp at hne
      | cons _ _ => rfl
    simp [MockEFIVariables.SetVariable, hlen, MockEFIVariables.GetVariable,
      lookup_filter_ne_append]

/-- Claim C7, witness: instantiated at a concrete descriptor and payload. -/
theorem mock_set_get_roundtrip_witness :
    ((MockEFIVariables.SetVariable ⟨[]⟩ ⟨0⟩ "BootOrder" [] 7).1.GetVariable
      ⟨0⟩ "BootOrder" = .error .varNotExist)
    ∧ ((MockEFIVariables.SetVariable ⟨[]⟩ ⟨0⟩ "BootOrder" [1, 2] 7).1.GetVariable
      ⟨0⟩ "BootOrder" = .ok ([1, 2], 7)) :=
  ⟨(mock_set_get_roundtrip ⟨[]⟩ ⟨0⟩ "BootOrder" [1, 2] 7).1,
   (mock_set_get_roundtrip ⟨[]⟩ ⟨0⟩ "BootOrder" [1, 2] 7).2 (by decide)⟩

/-- Claim C8: every boot entry produced by `InstallKernels` belongs to a
source kernel and has `Options` equal to the backslash same-directory
reference to that kernel's filename followed by a space and the configured
kernel command line, the architecture-qualified shim filename, and a label
and description embedding the vendor name (`Ubuntu`) and the kernel's ABI
version. -/
theorem installKernels_entry_shape {V : Type} (env : Env V)
    (km : KernelManager) (e : BootEntry)
    (he : e ∈ (installKernels env km).1.bootEntries) :
    ∃ sk, sk ∈ km.sourceKernels
      ∧ e.Filename = "shim" ++ env.efiArch ++ ".efi"
      ∧ e.Options = "\\" ++ sk ++ " " ++ km.kernelOptions
      ∧ e.Label = "Ubuntu with kernel " ++ getKernelABI sk
      ∧ e.Description = "Ubuntu entry for kernel " ++ getKernelABI sk := by
  simp only [installKernels] at he
  rw [List.mem_filterMap] at he
  rcases he with ⟨sk, hsk, heq⟩
  refine ⟨sk, hsk, ?_⟩
  cases h : (env.maybeUpdateFile (pathJoin km.targetDir sk)
      (pathJoin km.sourceDir sk)).2 with
  | some m => rw [h] at heq; cases heq
  | none =>
    rw [h] at heq
    simp only [Option.some.injEq] at heq
    rw [← heq]
    exact ⟨rfl, rfl, rfl, rfl⟩

/-- Claim C8, witness: the first entry produced for the two-kernel source
set has exactly the expected shim filename, options, label and
description. -/
theorem installKernels_entry_shape_witness :
    ∃ sk, sk ∈ kmTwoSource.sourceKernels
      ∧ ({ Filename := "shimx64.efi",
           Label := "Ubuntu with kernel 5.4.0-10",
           Options := "\\kernel.efi-5.4.0-10 root=magic",
           Description := "Ubuntu entry for kernel 5.4.0-10" } : BootEntry).Filename
          = "shim" ++ envCopyOk.efiArch ++ ".efi"
      ∧ ({ Filename := "shimx64.efi",
           Label := "Ubuntu with kernel 5.4.0-10",
           Options := "\\kernel.efi-5.4.0-10 root=magic",
           Description := "Ubuntu entry for kernel 5.4.0-10" } : BootEntry).Options
          = "\\" ++ sk ++ " " ++ kmTwoSource.kernelOptions
      ∧ ({ Filename := "shimx64.efi",
           Label := "Ubuntu with kernel 5.4.0-10",
           Options := "\\kernel.efi-5.4.0-10 root=magic",
           Description := "Ubuntu entry for kernel 5.4.0-10" } : BootEntry).Label
          = "Ubuntu with kernel " ++ getKernelABI sk
      ∧ ({ Filename := "shimx64.efi",
           Label := "Ubuntu with kernel 5.4.0-10",
           Options := "\\kernel.efi-5.4.0-10 root=magic",
           Description := "Ubuntu entry for kernel 5.4.0-10" } : BootEntry).Description
          = "Ubuntu entry for kernel " ++ getKernelABI sk :=
  installKernels_entry_shape envCopyOk kmTwoSource _ (by decide)

/-- Claim C9: when writing the fallback configuration fails,
`CommitToBootLoader` logs the failure and still returns nil, leaving the
manager state — in particular the boot-entry list — unchanged. -/
theorem commitToBootLoader_write_failure_nonfatal {V : Type} (env : Env V)
    (km : KernelManager)
    (hfail : env.writeShimFallback
        (pathJoin km.targetDir ("BOOT" ++ env.efiArch.toUpper ++ ".CSV"))
        km.bootEntries ≠ none) :
    commitToBootLoader env km = (km, true, none) := by
  simp [commitToBootLoader, Option.isSome_iff_ne_none.mpr hfail]

/-- Claim C9, witness: a failing fallback write is logged, the call returns
nil, and the manager (with its boot-entry list) is returned unchanged. -/
theorem commitToBootLoader_write_failure_nonfatal_witness :
    commitToBootLoader envWriteFails kmTwoSource = (kmTwoSource, true, none) :=
  commitToBootLoader_write_failure_nonfatal envWriteFails kmTwoSource
    (by simp [envWriteFails, baseEnv])

/-- Claim C10: after `RemoveObsoleteKernels`, the tracked target list holds
exactly the obsolete kernels whose deletion failed; a target kernel still
present in the source set is dropped from the tracked list even though its
file was never deleted (no removal was attempted for it). -/
theorem removeObsolete_tracked_exactly {V : Type} (env : Env V)
    (km : KernelManager) :
    (removeObsoleteKernels env km).1.targetKernels =
      km.targetKernels.filter (fun tk =>
        isObsoleteKernel km tk && (env.remove (pathJoin km.targetDir tk)).isSome)
    ∧ (∀ tk, tk ∈ km.targetKernels → isObsoleteKernel km tk = false →
        tk ∉ (removeObsoleteKernels env km).1.targetKernels
        ∧ tk ∉ (removeObsoleteKernels env km).2.1) := by
  have hspec := removeFold_spec env km km.targetKernels [] []
  constructor
  · simp only [removeObsoleteKernels, hspec]
    simp
  · intro tk _ hobs
    constructor
    · intro hin
      simp only [removeObsoleteKernels, hspec] at hin
      simp only [List.nil_append] at hin
      have h := (List.mem_filter.mp hin).2
      rw [hobs] at h
      simp at h
    · intro hin
      simp only [removeObsoleteKernels, hspec] at hin
      simp only [List.nil_append] at hin
      have h := (List.mem_filter.mp hin).2
      rw [hobs] at h
      cases h

/-- Claim C10, witness: the still-current `kernel.efi-5.4.0-10` is dropped
from the tracked list without a removal attempt, while the tracked list
keeps exactly the obsolete kernel whose removal failed. -/
theorem removeObsolete_tracked_exactly_witness :
    (removeObsoleteKernels envRemoveOneFails kmRemoval).1.targetKernels =
      ["kernel.efi-5.4.0-8"]
    ∧ "kernel.efi-5.4.0-10" ∉ (removeObsoleteKernels envRemoveOneFails kmRemoval).1.targetKernels :=
  ⟨by decide,
   ((removeObsolete_tracked_exactly envRemoveOneFails kmRemoval).2
     "kernel.efi-5.4.0-10" (by decide) (by decide)).1⟩
